import Mathlib

/-!
Verification of the PumpFun paper-trading bot (`trading_bot.py`).

Python dictionaries are embedded as association lists that mirror CPython
semantics: insertion order is preserved, updating an existing key replaces
its value in place, and deleting a key removes its entry.  Python floats
are idealised as exact rationals (`ℚ`); all comparisons and arithmetic in
the source are order/field operations that carry over verbatim.
-/

/-- `d.get(k)` / `d[k]`-style lookup: first entry whose key equals `k`. -/
def dictGet {α : Type} : List (String × α) → String → Option α
  | [], _ => none
  | (k2, v) :: rest, k => if k2 = k then some v else dictGet rest k

/-- `d.get(k, default)`. -/
def dictGetD {α : Type} (m : List (String × α)) (k : String) (d : α) : α :=
  (dictGet m k).getD d

/-- `d[k] = v`: replace in place if the key exists, else append at the end
(CPython insertion-order semantics). -/
def dictSet {α : Type} : List (String × α) → String → α → List (String × α)
  | [], k, v => [(k, v)]
  | (k2, v2) :: rest, k, v =>
      if k2 = k then (k, v) :: rest else (k2, v2) :: dictSet rest k v

/-- `del d[k]`: drop the first entry whose key equals `k`. -/
def dictDel {α : Type} : List (String × α) → String → List (String × α)
  | [], _ => []
  | (k2, v2) :: rest, k => if k2 = k then rest else (k2, v2) :: dictDel rest k

theorem dictGet_dictSet_self {α : Type} (m : List (String × α)) (k : String) (v : α) :
    dictGet (dictSet m k v) k = some v := by
  induction m with
  | nil => simp [dictSet, dictGet]
  | cons hd tl ih =>
      obtain ⟨k2, v2⟩ := hd
      by_cases h : k2 = k
      · simp [dictSet, dictGet, h]
      · simp [dictSet, dictGet, h, ih]

theorem dictGet_dictSet_ne {α : Type} (m : List (String × α)) (k a : String) (v : α)
    (h : a ≠ k) : dictGet (dictSet m k v) a = dictGet m a := by
  induction m with
  | nil => simp [dictSet, dictGet, Ne.symm h]
  | cons hd tl ih =>
      obtain ⟨k2, v2⟩ := hd
      by_cases h2 : k2 = k
      · subst h2
        simp [dictSet, dictGet, Ne.symm h]
      · simp [dictSet, dictGet, h2, ih]

theorem dictSet_dictSet {α : Type} (m : List (String × α)) (k : String) (a b : α) :
    dictSet (dictSet m k a) k b = dictSet m k b := by
  induction m with
  | nil => simp [dictSet]
  | cons hd tl ih =>
      obtain ⟨k2, v2⟩ := hd
      by_cases h : k2 = k
      · simp [dictSet, h]
      · simp [dictSet, h, ih]

theorem dictSet_eq_self {α : Type} (m : List (String × α)) (k : String) (v : α)
    (h : dictGet m k = some v) : dictSet m k v = m := by
  induction m with
  | nil => simp [dictGet] at h
  | cons hd tl ih =>
      obtain ⟨k2, v2⟩ := hd
      by_cases h2 : k2 = k
      · subst h2
        simp [dictGet] at h
        simp [dictSet, h]
      · simp [dictGet, h2] at h
        simp [dictSet, h2, ih h]

theorem dictDel_dictSet {α : Type} (m : List (String × α)) (k : String) (v : α) :
    dictDel (dictSet m k v) k = dictDel m k := by
  induction m with
  | nil => simp [dictSet, dictDel]
  | cons hd tl ih =>
      obtain ⟨k2, v2⟩ := hd
      by_cases h : k2 = k
      · simp [dictSet, dictDel, h]
      · simp [dictSet, dictDel, h, ih]

theorem dictDel_eq_self {α : Type} (m : List (String × α)) (k : String)
    (h : dictGet m k = none) : dictDel m k = m := by
  induction m with
  | nil => simp [dictDel]
  | cons hd tl ih =>
      obtain ⟨k2, v2⟩ := hd
      by_cases h2 : k2 = k
      · simp [dictGet, h2] at h
      · simp [dictGet, h2] at h
        simp [dictDel, h2, ih h]

theorem dictSet_values {α : Type} {P : α → Prop} {m : List (String × α)}
    (hm : ∀ e ∈ m, P e.2) {k : String} {v : α} (hv : P v) :
    ∀ e ∈ dictSet m k v, P e.2 := by
  induction m with
  | nil => simpa [dictSet] using hv
  | cons hd tl ih =>
      obtain ⟨k2, v2⟩ := hd
      by_cases h : k2 = k
      · intro e he
        simp [dictSet, h] at he
        rcases he with he | he
        · simpa [he] using hv
        · exact hm e (by simp [he])
      · intro e he
        simp [dictSet, h] at he
        rcases he with he | he
        · exact hm e (by simp [he])
        · exact ih (fun e2 he2 => hm e2 (by simp [he2])) e he

theorem dictDel_values {α : Type} {P : α → Prop} {m : List (String × α)}
    (hm : ∀ e ∈ m, P e.2) (k : String) :
    ∀ e ∈ dictDel m k, P e.2 := by
  induction m with
  | nil => simp [dictDel]
  | cons hd tl ih =>
      obtain ⟨k2, v2⟩ := hd
      by_cases h : k2 = k
      · intro e he
        exact hm e (by simp [dictDel, h] at he ⊢; exact Or.inr he)
      · intro e he
        simp [dictDel, h] at he
        rcases he with he | he
        · exact hm e (by simp [he])
        · exact ih (fun e2 he2 => hm e2 (by simp [he2])) e he

theorem dictGet_values {α : Type} {P : α → Prop} {m : List (String × α)}
    (hm : ∀ e ∈ m, P e.2) {k : String} {v : α} (h : dictGet m k = some v) : P v := by
  induction m with
  | nil => simp [dictGet] at h
  | cons hd tl ih =>
      obtain ⟨k2, v2⟩ := hd
      by_cases h2 : k2 = k
      · simp [dictGet, h2] at h
        exact h ▸ hm (k2, v2) (by simp)
      · simp [dictGet, h2] at h
        exact ih (fun e2 he2 => hm e2 (by simp [he2])) h

/-- The virtual ledger slice of `PumpFunBot`: `self.virtual_balance`,
`self.positions` and `self.token_prices` (the cost basis recorded on buys). -/
structure Ledger where
  virtual_balance : ℚ
  positions : List (String × ℚ)
  token_prices : List (String × ℚ)
deriving Repr, DecidableEq

/-- Outcome of one `simulate_trade` call: which branch of the function ran.
`keyError` is the `del self.token_prices[coin]` KeyError that escapes through
`raise e`; `noOp` is a side other than `'buy'`/`'sell'` (no branch taken). -/
inductive SimResult where
  | buyOk
  | insufficientBalance
  | sellOk
  | insufficientPosition
  | keyError
  | noOp
deriving Repr, DecidableEq

/-- `PumpFunBot.simulate_trade` (trading_bot.py lines 120-166), returning the
branch outcome together with the ledger state after the call (for `keyError`,
the partially mutated state left behind when the exception is re-raised). -/
def simulate_trade (st : Ledger) (coin side : String) (quantity price : ℚ) :
    SimResult × Ledger :=
  if side = "buy" then
    let cost := quantity * price
    if cost ≤ st.virtual_balance then
      (SimResult.buyOk,
        { virtual_balance := st.virtual_balance - cost
          positions := dictSet st.positions coin (dictGetD st.positions coin 0 + quantity)
          token_prices := dictSet st.token_prices coin price })
    else
      (SimResult.insufficientBalance, st)
  else if side = "sell" then
    match dictGet st.positions coin with
    | some held =>
        if quantity ≤ held then
          let proceeds := quantity * price
          let newBalance := st.virtual_balance + proceeds
          let newHeld := held - quantity
          if newHeld ≤ 0 then
            match dictGet st.token_prices coin with
            | some _ =>
                (SimResult.sellOk,
                  { virtual_balance := newBalance
                    positions := dictDel (dictSet st.positions coin newHeld) coin
                    token_prices := dictDel st.token_prices coin })
            | none =>
                (SimResult.keyError,
                  { virtual_balance := newBalance
                    positions := dictDel (dictSet st.positions coin newHeld) coin
                    token_prices := st.token_prices })
          else
            (SimResult.sellOk,
              { virtual_balance := newBalance
                positions := dictSet st.positions coin newHeld
                token_prices := st.token_prices })
        else
          (SimResult.insufficientPosition, st)
    | none => (SimResult.insufficientPosition, st)
  else
    (SimResult.noOp, st)

/-- One call to `simulate_trade` in a sequence of operations. -/
structure TradeOp where
  coin : String
  side : String
  quantity : ℚ
  price : ℚ
deriving Repr, DecidableEq

/-- Apply a sequence of `simulate_trade` calls left to right. -/
def runTrades (st : Ledger) (ops : List TradeOp) : Ledger :=
  ops.foldl (fun s op => (simulate_trade s op.coin op.side op.quantity op.price).2) st

/-- The ledger as initialised by `PumpFunBot.__init__`: 1 SOL, no positions. -/
def initialLedger : Ledger :=
  { virtual_balance := 1, positions := [], token_prices := [] }

/-- The ledger invariant of the spec: non-negative balance and no negative
stored position quantity. -/
def LedgerInv (st : Ledger) : Prop :=
  0 ≤ st.virtual_balance ∧ ∀ e ∈ st.positions, 0 ≤ e.2

theorem simulate_trade_buy (st : Ledger) (coin : String) (q p : ℚ) :
    simulate_trade st coin "buy" q p =
      if q * p ≤ st.virtual_balance then
        (SimResult.buyOk,
          { virtual_balance := st.virtual_balance - q * p
            positions := dictSet st.positions coin (dictGetD st.positions coin 0 + q)
            token_prices := dictSet st.token_prices coin p })
      else (SimResult.insufficientBalance, st) := by
  simp [simulate_trade]

theorem simulate_trade_sell_absent (st : Ledger) (coin : String) (q p : ℚ)
    (h : dictGet st.positions coin = none) :
    simulate_trade st coin "sell" q p = (SimResult.insufficientPosition, st) := by
  simp [simulate_trade, h]

theorem simulate_trade_sell_short {st : Ledger} {coin : String} {q p held : ℚ}
    (h : dictGet st.positions coin = some held) (hlt : held < q) :
    simulate_trade st coin "sell" q p = (SimResult.insufficientPosition, st) := by
  simp [simulate_trade, h, not_le.mpr hlt]

theorem simulate_trade_sell_close {st : Ledger} {coin : String} {q p held pr : ℚ}
    (h : dictGet st.positions coin = some held) (hq : q ≤ held) (hz : held - q ≤ 0)
    (hpr : dictGet st.token_prices coin = some pr) :
    simulate_trade st coin "sell" q p =
      (SimResult.sellOk,
        { virtual_balance := st.virtual_balance + q * p
          positions := dictDel (dictSet st.positions coin (held - q)) coin
          token_prices := dictDel st.token_prices coin }) := by
  simp [simulate_trade, h, hq, hz, hpr]

theorem simulate_trade_sell_close_keyerr {st : Ledger} {coin : String} {q p held : ℚ}
    (h : dictGet st.positions coin = some held) (hq : q ≤ held) (hz : held - q ≤ 0)
    (hpr : dictGet st.token_prices coin = none) :
    simulate_trade st coin "sell" q p =
      (SimResult.keyError,
        { virtual_balance := st.virtual_balance + q * p
          positions := dictDel (dictSet st.positions coin (held - q)) coin
          token_prices := st.token_prices }) := by
  simp [simulate_trade, h, hq, hz, hpr]

theorem simulate_trade_sell_keep {st : Ledger} {coin : String} {q p held : ℚ}
    (h : dictGet st.positions coin = some held) (hq : q ≤ held) (hz : 0 < held - q) :
    simulate_trade st coin "sell" q p =
      (SimResult.sellOk,
        { virtual_balance := st.virtual_balance + q * p
          positions := dictSet st.positions coin (held - q)
          token_prices := st.token_prices }) := by
  simp [simulate_trade, h, hq, not_le.mpr hz]

theorem simulate_trade_other (st : Ledger) (coin side : String) (q p : ℚ)
    (h1 : side ≠ "buy") (h2 : side ≠ "sell") :
    simulate_trade st coin side q p = (SimResult.noOp, st) := by
  simp [simulate_trade, h1, h2]

theorem dictGetD_nonneg {m : List (String × ℚ)} (hm : ∀ e ∈ m, 0 ≤ e.2) (k : String) :
    0 ≤ dictGetD m k 0 := by
  unfold dictGetD
  cases hg : dictGet m k with
  | none => simp
  | some v => simpa using dictGet_values hm hg

theorem simulate_trade_inv (st : Ledger) (coin side : String) (q p : ℚ)
    (hst : LedgerInv st) (hq : 0 ≤ q) (hp : 0 ≤ p) :
    LedgerInv (simulate_trade st coin side q p).2 := by
  obtain ⟨hbal, hpos⟩ := hst
  by_cases hb : side = "buy"
  · subst hb
    rw [simulate_trade_buy]
    by_cases hc : q * p ≤ st.virtual_balance
    · rw [if_pos hc]
      exact ⟨sub_nonneg.mpr hc,
        dictSet_values hpos (add_nonneg (dictGetD_nonneg hpos coin) hq)⟩
    · rw [if_neg hc]
      exact ⟨hbal, hpos⟩
  · by_cases hs : side = "sell"
    · subst hs
      cases hg : dictGet st.positions coin with
      | none =>
          rw [simulate_trade_sell_absent st coin q p hg]
          exact ⟨hbal, hpos⟩
      | some held =>
          by_cases hqh : q ≤ held
          · by_cases hz : held - q ≤ 0
            · cases hpr : dictGet st.token_prices coin with
              | none =>
                  rw [simulate_trade_sell_close_keyerr hg hqh hz hpr]
                  exact ⟨add_nonneg hbal (mul_nonneg hq hp),
                    dictDel_values (dictSet_values hpos (sub_nonneg.mpr hqh)) coin⟩
              | some pr =>
                  rw [simulate_trade_sell_close hg hqh hz hpr]
                  exact ⟨add_nonneg hbal (mul_nonneg hq hp),
                    dictDel_values (dictSet_values hpos (sub_nonneg.mpr hqh)) coin⟩
            · rw [simulate_trade_sell_keep hg hqh (by linarith)]
              exact ⟨add_nonneg hbal (mul_nonneg hq hp),
                dictSet_values hpos (sub_nonneg.mpr hqh)⟩
          · rw [simulate_trade_sell_short hg (not_le.mp hqh)]
            exact ⟨hbal, hpos⟩
    · rw [simulate_trade_other st coin side q p hb hs]
      exact ⟨hbal, hpos⟩

theorem runTrades_inv (ops : List TradeOp) (st : Ledger) (hst : LedgerInv st)
    (h : ∀ op ∈ ops, 0 ≤ op.quantity ∧ 0 ≤ op.price) : LedgerInv (runTrades st ops) := by
  induction ops generalizing st with
  | nil => simpa [runTrades] using hst
  | cons op rest ih =>
      have hop := h op (by simp)
      have hstep := simulate_trade_inv st op.coin op.side op.quantity op.price hst hop.1 hop.2
      have hrw : runTrades st (op :: rest) =
          runTrades (simulate_trade st op.coin op.side op.quantity op.price).2 rest := by
        simp [runTrades]
      rw [hrw]
      exact ih _ hstep (fun o ho => h o (by simp [ho]))

/-- C1 counterexample: the invariant is not preserved for arbitrary operation
values.  A single `simulate_trade` buy of quantity `-1` at price `1` from the
initial ledger passes the `balance >= cost` guard (cost is `-1`) and stores a
negative position quantity for `"X"`. -/
theorem ledger_invariant_counterexample :
    dictGet (runTrades initialLedger
        [{ coin := "X", side := "buy", quantity := -1, price := 1 }]).positions "X" =
      some (-1) ∧ (-1 : ℚ) < 0 := by
  constructor
  · norm_num [runTrades, simulate_trade, initialLedger, dictGetD, dictGet, dictSet]
  · norm_num

/-- C1 (amended): for every sequence of `simulate_trade` buy/sell operations
whose quantities and prices are non-negative, starting from the initial
ledger (balance 1, no positions), the balance never goes negative and no
stored position quantity goes negative. -/
theorem ledger_invariant_nonneg (ops : List TradeOp)
    (h : ∀ op ∈ ops, 0 ≤ op.quantity ∧ 0 ≤ op.price) :
    0 ≤ (runTrades initialLedger ops).virtual_balance ∧
      ∀ e ∈ (runTrades initialLedger ops).positions, 0 ≤ e.2 :=
  runTrades_inv ops initialLedger ⟨by norm_num [initialLedger], by simp [initialLedger]⟩ h

/-- Witness for C1: the amended invariant theorem applied to a concrete
one-operation sequence. -/
theorem ledger_invariant_nonneg_witness :
    0 ≤ (runTrades initialLedger
        [{ coin := "X", side := "buy", quantity := 1, price := 1 }]).virtual_balance ∧
      ∀ e ∈ (runTrades initialLedger
        [{ coin := "X", side := "buy", quantity := 1, price := 1 }]).positions, 0 ≤ e.2 :=
  ledger_invariant_nonneg _ (by decide)

/-- C2: `simulate_trade` with side `'buy'` computes `cost = quantity * price`;
when the balance is at least the cost it decrements the balance, adds the
quantity to the position (creating it at the quantity if absent) and records
the price as the cost basis; otherwise it reports insufficient funds and
leaves the whole ledger unchanged.  In particular, buying 2 units of `"X"` at
price `0.1` from balance `1` yields balance `0.8` and position `2`. -/
theorem apply_buy_spec :
    (∀ (st : Ledger) (coin : String) (q p : ℚ),
        simulate_trade st coin "buy" q p =
          if q * p ≤ st.virtual_balance then
            (SimResult.buyOk,
              { virtual_balance := st.virtual_balance - q * p
                positions := dictSet st.positions coin (dictGetD st.positions coin 0 + q)
                token_prices := dictSet st.token_prices coin p })
          else (SimResult.insufficientBalance, st)) ∧
      simulate_trade initialLedger "X" "buy" 2 (1/10) =
        (SimResult.buyOk,
          { virtual_balance := 4/5, positions := [("X", 2)], token_prices := [("X", 1/10)] }) := by
  refine ⟨simulate_trade_buy, ?_⟩
  rw [simulate_trade_buy]
  norm_num [initialLedger, dictGetD, dictGet, dictSet]

/-- C3 counterexample: the failure criterion is not exactly
`positions[token] < quantity`.  Selling quantity `0` of an unheld token takes
the insufficient-position branch (the `coin in positions` test fails) even
though `positions["X"]` treated as `0` is not `< 0`. -/
theorem apply_sell_criterion_counterexample :
    simulate_trade initialLedger "X" "sell" 0 1 = (SimResult.insufficientPosition, initialLedger) ∧
      ¬ dictGetD initialLedger.positions "X" 0 < 0 := by
  constructor
  · exact simulate_trade_sell_absent _ _ _ _ (by simp [initialLedger, dictGet])
  · norm_num [initialLedger, dictGetD, dictGet]

/-- C3 (amended): for positive quantity, `simulate_trade` with side `'sell'`
fails with insufficient position exactly when `positions[token]` (missing
entry read as 0) is below the quantity, leaving the ledger unchanged; with a
sufficient position it adds `quantity * price` to the balance and decrements
the position, deleting the position and its cost-basis entry when the result
is `≤ 0` (provided the cost-basis entry exists, as it does in every state
produced by buys). -/
theorem apply_sell_spec (st : Ledger) (coin : String) (q p : ℚ) (hq : 0 < q) :
    ((simulate_trade st coin "sell" q p).1 = SimResult.insufficientPosition ↔
        dictGetD st.positions coin 0 < q) ∧
      (dictGetD st.positions coin 0 < q →
        simulate_trade st coin "sell" q p = (SimResult.insufficientPosition, st)) ∧
      (∀ held, dictGet st.positions coin = some held → q ≤ held →
        (held - q ≤ 0 → (dictGet st.token_prices coin).isSome = true →
          simulate_trade st coin "sell" q p =
            (SimResult.sellOk,
              { virtual_balance := st.virtual_balance + q * p
                positions := dictDel st.positions coin
                token_prices := dictDel st.token_prices coin })) ∧
        (0 < held - q →
          simulate_trade st coin "sell" q p =
            (SimResult.sellOk,
              { virtual_balance := st.virtual_balance + q * p
                positions := dictSet st.positions coin (held - q)
                token_prices := st.token_prices }))) := by
  refine ⟨?_, ?_, ?_⟩
  · cases hg : dictGet st.positions coin with
    | none =>
        rw [simulate_trade_sell_absent st coin q p hg]
        simp [dictGetD, hg, hq]
    | some held =>
        by_cases hqh : q ≤ held
        · by_cases hz : held - q ≤ 0
          · cases hpr : dictGet st.token_prices coin with
            | none =>
                rw [simulate_trade_sell_close_keyerr hg hqh hz hpr]
                simp [dictGetD, hg, not_lt.mpr hqh]
            | some pr =>
                rw [simulate_trade_sell_close hg hqh hz hpr]
                simp [dictGetD, hg, not_lt.mpr hqh]
          · rw [simulate_trade_sell_keep hg hqh (by linarith)]
            simp [dictGetD, hg, not_lt.mpr hqh]
        · rw [simulate_trade_sell_short hg (not_le.mp hqh)]
          simp [dictGetD, hg, not_le.mp hqh]
  · intro hlt
    cases hg : dictGet st.positions coin with
    | none => exact simulate_trade_sell_absent st coin q p hg
    | some held =>
        rw [dictGetD, hg] at hlt
        exact simulate_trade_sell_short hg hlt
  · intro held hg hqh
    constructor
    · intro hz hpr
      obtain ⟨pr, hpr2⟩ := Option.isSome_iff_exists.mp hpr
      rw [simulate_trade_sell_close hg hqh hz hpr2, dictDel_dictSet]
    · intro hz
      exact simulate_trade_sell_keep hg hqh hz

/-- Witness for C3: end-to-end scenario 2 — with balance `0.8` and a position
of `2` units of `"X"`, selling `3` units at price `0.1` fails with
insufficient position and changes nothing. -/
theorem apply_sell_spec_witness :
    simulate_trade
        { virtual_balance := 4/5, positions := [("X", 2)], token_prices := [("X", 1/10)] }
        "X" "sell" 3 (1/10) =
      (SimResult.insufficientPosition,
        { virtual_balance := 4/5, positions := [("X", 2)], token_prices := [("X", 1/10)] }) :=
  (apply_sell_spec _ "X" 3 (1/10) (by decide)).2.1 (by decide)

/-- C4: in any ledger state whose stored position quantities are positive
(the spec's data-model invariant), a successful buy followed by a sell of the
same token, quantity and price succeeds and restores the prior
`(balance, positions)` pair exactly. -/
theorem buy_sell_round_trip (st : Ledger) (token : String) (q p : ℚ)
    (hpos : ∀ v, dictGet st.positions token = some v → 0 < v)
    (hbuy : (simulate_trade st token "buy" q p).1 = SimResult.buyOk) :
    (simulate_trade (simulate_trade st token "buy" q p).2 token "sell" q p).1 =
        SimResult.sellOk ∧
      (simulate_trade (simulate_trade st token "buy" q p).2 token "sell" q p).2.virtual_balance =
        st.virtual_balance ∧
      (simulate_trade (simulate_trade st token "buy" q p).2 token "sell" q p).2.positions =
        st.positions := by
  have hc : q * p ≤ st.virtual_balance := by
    by_contra hc
    rw [simulate_trade_buy, if_neg hc] at hbuy
    simp at hbuy
  have hst1 : (simulate_trade st token "buy" q p).2 =
      { virtual_balance := st.virtual_balance - q * p
        positions := dictSet st.positions token (dictGetD st.positions token 0 + q)
        token_prices := dictSet st.token_prices token p } := by
    rw [simulate_trade_buy, if_pos hc]
  rw [hst1]
  cases hg : dictGet st.positions token with
  | none =>
      have hgd : dictGetD st.positions token 0 = 0 := by simp [dictGetD, hg]
      rw [hgd]
      have hget : dictGet (dictSet st.positions token (0 + q)) token = some (0 + q) :=
        dictGet_dictSet_self st.positions token (0 + q)
      have hsell := @simulate_trade_sell_close
        { virtual_balance := st.virtual_balance - q * p
          positions := dictSet st.positions token (0 + q)
          token_prices := dictSet st.token_prices token p }
        token q p (0 + q) p
        hget (by linarith) (by linarith)
        (dictGet_dictSet_self st.token_prices token p)
      rw [hsell]
      refine ⟨rfl, by ring_nf, ?_⟩
      show dictDel (dictSet (dictSet st.positions token (0 + q)) token (0 + q - q)) token =
        st.positions
      rw [dictSet_dictSet, dictDel_dictSet, dictDel_eq_self st.positions token hg]
  | some v0 =>
      have hv0 : 0 < v0 := hpos v0 hg
      have hgd : dictGetD st.positions token 0 = v0 := by simp [dictGetD, hg]
      rw [hgd]
      have hget : dictGet (dictSet st.positions token (v0 + q)) token = some (v0 + q) :=
        dictGet_dictSet_self st.positions token (v0 + q)
      have hsell := @simulate_trade_sell_keep
        { virtual_balance := st.virtual_balance - q * p
          positions := dictSet st.positions token (v0 + q)
          token_prices := dictSet st.token_prices token p }
        token q p (v0 + q)
        hget (by linarith) (by linarith)
      rw [hsell]
      refine ⟨rfl, by ring_nf, ?_⟩
      show dictSet (dictSet st.positions token (v0 + q)) token (v0 + q - q) = st.positions
      have hval : v0 + q - q = v0 := by ring
      rw [hval, dictSet_dictSet, dictSet_eq_self st.positions token v0 hg]

/-- Witness for C4: round trip at a concrete input — buy 1 unit of `"X"` at
price 0 from the initial ledger, then sell it back. -/
theorem buy_sell_round_trip_witness :
    (simulate_trade (simulate_trade initialLedger "X" "buy" 1 0).2 "X" "sell" 1 0).1 =
        SimResult.sellOk ∧
      (simulate_trade (simulate_trade initialLedger "X" "buy" 1 0).2 "X" "sell" 1 0).2.virtual_balance =
        initialLedger.virtual_balance ∧
      (simulate_trade (simulate_trade initialLedger "X" "buy" 1 0).2 "X" "sell" 1 0).2.positions =
        initialLedger.positions :=
  buy_sell_round_trip initialLedger "X" 1 0
    (by simp [initialLedger, dictGet])
    (by simp [simulate_trade_buy, initialLedger])

/-- An entry of `self.analyzed_tokens`: the `{'timestamp': ..., 'is_safe': ...}`
dict written by the decision loop. -/
structure AnalysisRecord where
  timestamp : ℚ
  is_safe : Bool
deriving Repr, DecidableEq

/-- `PumpFunBot.should_analyze_token` (trading_bot.py lines 563-578), with the
instance fields `self.analyzed_tokens` / `self.analysis_cache_time` and the
`time.time()` reading passed explicitly. -/
def should_analyze_token (analyzed_tokens : List (String × AnalysisRecord))
    (analysis_cache_time : ℚ) (token_address : String) (current_time : ℚ) : Bool :=
  match dictGet analyzed_tokens token_address with
  | none => true
  | some last_analysis =>
      decide (analysis_cache_time < current_time - last_analysis.timestamp)

/-- C5: the staleness check is a pure function of the stored record and the
current time; it returns true iff no record exists or the record is older
than the TTL.  Concretely, with TTL 300: true with no record, false 100
seconds after a record is written, true 400 seconds after. -/
theorem should_analyze_token_spec :
    (∀ (cache : List (String × AnalysisRecord)) (ttl : ℚ) (addr : String) (t : ℚ),
        should_analyze_token cache ttl addr t = true ↔
          (dictGet cache addr = none ∨
            ∃ r, dictGet cache addr = some r ∧ ttl < t - r.timestamp)) ∧
      (∀ t : ℚ, should_analyze_token [] 300 "A1" t = true) ∧
      (∀ (t : ℚ) (b : Bool),
        should_analyze_token (dictSet [] "A1" { timestamp := t, is_safe := b }) 300 "A1"
            (t + 100) = false ∧
          should_analyze_token (dictSet [] "A1" { timestamp := t, is_safe := b }) 300 "A1"
            (t + 400) = true) := by
  refine ⟨?_, ?_, ?_⟩
  · intro cache ttl addr t
    cases hg : dictGet cache addr with
    | none => simp [should_analyze_token, hg]
    | some r => simp [should_analyze_token, hg]
  · intro t
    simp [should_analyze_token, dictGet]
  · intro t b
    constructor
    · simp [should_analyze_token, dictSet, dictGet]
      norm_num
    · simp [should_analyze_token, dictSet, dictGet]
      norm_num

/-- One parsed JSON body of the GMGN swap-route endpoint together with its
HTTP status: `status_code`, `data.get('code')` and `data.get('msg', ...)`. -/
structure ApiResponse where
  status_code : Nat
  code : Int
  msg : String
deriving Repr, DecidableEq

/-- `max_retries` in `examine_token_contract`. -/
def max_retries : Nat := 5

/-- `retry_delay` (seconds) in `examine_token_contract`; the sleep that would
use it is unreachable (see `examine_token_contract_no_retry`). -/
def retry_delay : Nat := 7200

/-- One iteration of the `for attempt in range(max_retries)` body of
`examine_token_contract` (trading_bot.py lines 372-406).  `none` as input is
a `requests.RequestException` (caught: return `False`).  The result is the
value returned by the iteration; `Option.none` would mean "fell through to
the sleep-and-retry tail", which no branch of the source reaches: a non-200
status returns `False`, `code == 0` returns `True`, and any other `code`
(including the "jupiter has no route" message and any too-new message)
returns `False`. -/
def examineAttempt (r : Option ApiResponse) : Option Bool :=
  match r with
  | none => some false
  | some resp =>
      if resp.status_code ≠ 200 then some false
      else if resp.code = 0 then some true
      else some false

/-- The retry loop of `examine_token_contract`: `responses n` is what the
network returns on attempt `n`; when an iteration falls through, the code
sleeps `retry_delay` seconds and retries; after `max_retries` attempts it
returns `False`. -/
def examineFrom (responses : Nat → Option ApiResponse) : Nat → Nat → Bool
  | _, 0 => false
  | attempt, fuel + 1 =>
      match examineAttempt (responses attempt) with
      | some b => b
      | none => examineFrom responses (attempt + 1) fuel

/-- `PumpFunBot.examine_token_contract` (trading_bot.py lines 364-409) as a
function of the per-attempt network responses. -/
def examine_token_contract (responses : Nat → Option ApiResponse) : Bool :=
  examineFrom responses 0 max_retries

/-- C7 (code bug): a response marking the token as too new to evaluate (any
non-zero `code`) is rejected immediately on the first attempt — the
sleep-and-retry tail of the loop is dead code, so no cool-down or retry ever
happens, contradicting the function's own docstring ("Retries if the token
is too new to be examined").  First conjunct: the checker returns `False`
even though every attempt after the first would succeed.  The remaining
conjuncts confirm the immediate-rejection half of the claim: a non-200
transport response and a no-swap-route response are rejected with no retry. -/
theorem examine_token_contract_no_retry :
    examine_token_contract (fun n =>
        if n = 0 then some { status_code := 200, code := 1, msg := "token too new" }
        else some { status_code := 200, code := 0, msg := "ok" }) = false ∧
      examine_token_contract (fun _ =>
        some { status_code := 500, code := 0, msg := "" }) = false ∧
      examine_token_contract (fun _ =>
        some { status_code := 200, code := 1, msg := "jupiter has no route" }) = false := by
  refine ⟨?_, ?_, ?_⟩ <;> rfl

/-- A value of the `self.market_data` dict.  The two writers store different
key sets: `handle_new_token` writes `symbol`, `address`, `initial_buy`,
`sol_amount`, `market_cap_sol`, `last_trade`; `handle_token_trade` writes
`symbol`, `address`, `market_cap`, `last_trade`.  Keys a writer does not
store are `none`; `price` and `volume` are never written by any code path. -/
structure TokenData where
  symbol : String
  address : String
  initial_buy : Option ℚ
  sol_amount : Option ℚ
  market_cap_sol : Option ℚ
  market_cap : Option ℚ
  price : Option ℚ
  volume : Option ℚ
  last_trade : ℚ
deriving Repr, DecidableEq

/-- Observable outcome of one `execute_momentum_trade` call: `buyAttempt`
when `place_order(symbol, 'buy', position_size, market_cap)` is reached,
`hold` when the threshold test fails, `error` when the body raises
(`KeyError` on a missing `market_cap` key, or `AttributeError` on the
never-assigned `self.min_market_cap_threshold`) and the `except` logs it. -/
inductive Decision where
  | buyAttempt (quantity price : ℚ)
  | hold
  | error
deriving Repr, DecidableEq

/-- The mutable instance state of `PumpFunBot` relevant to the claims,
together with its configuration fields.  `min_market_cap_threshold` is an
`Option` because `__init__` never assigns that attribute: reading it raises
`AttributeError`, which the model encodes as the `none` case. -/
structure BotState where
  ledger : Ledger
  market_data : List (String × TokenData)
  analyzed_tokens : List (String × AnalysisRecord)
  min_market_cap_threshold : Option ℚ
  min_volume_threshold : ℚ
  position_size : ℚ
  min_price_change : ℚ
  analysis_cache_time : ℚ
  buy_amount : ℚ
  paper_mode : Bool
deriving Repr, DecidableEq

/-- `PumpFunBot.execute_momentum_trade` (trading_bot.py lines 470-486)
followed by `place_order` → `simulate_trade` when the threshold test passes.
The `try` body reads `token_data['market_cap']` (KeyError when the key is
missing) and `self.min_market_cap_threshold` (AttributeError: `__init__`
never assigns it); either exception is caught by the `except` and logged, so
the call ends without any trade. -/
def execute_momentum_trade (st : BotState) (token_data : TokenData) :
    BotState × Decision :=
  match token_data.market_cap with
  | none => (st, Decision.error)
  | some market_cap =>
      match st.min_market_cap_threshold with
      | none => (st, Decision.error)
      | some threshold =>
          if threshold < market_cap then
            let r := st.ledger
            let s := simulate_trade r token_data.symbol "buy" st.position_size market_cap
            ({ st with ledger := s.2 }, Decision.buyAttempt st.position_size market_cap)
          else (st, Decision.hold)

/-- A parsed `newToken` event: `data.get('mint')`, `data.get('symbol',
'Unknown')` and the numeric fields with their `data.get(..., 0)` defaults
already applied. -/
structure NewTokenEvent where
  mint : String
  symbol : String
  initialBuy : ℚ
  solAmount : ℚ
  marketCapSol : ℚ
deriving Repr, DecidableEq

/-- A parsed `tokenTrade` event.  `price` and `volume` are the event fields
named by the external-interface contract; the handler never reads them. -/
structure TokenTradeEvent where
  mint : String
  symbol : String
  marketCapSol : Option ℚ
  price : Option ℚ
  volume : Option ℚ
deriving Repr, DecidableEq

/-- `PumpFunBot.handle_new_token` (trading_bot.py lines 253-290).  `now` is
the `time.time()` reading and `examineResult` the value returned by the
`examine_token_contract` call on line 275 — the handler discards it and
never writes `self.analyzed_tokens`.  The second component records whether
and how `execute_momentum_trade` was invoked (`none`: not invoked). -/
def handle_new_token (st : BotState) (ev : NewTokenEvent) (now : ℚ)
    (examineResult : Bool) : BotState × Option Decision :=
  let td : TokenData :=
    { symbol := ev.symbol
      address := ev.mint
      initial_buy := some ev.initialBuy
      sol_amount := some ev.solAmount
      market_cap_sol := some ev.marketCapSol
      market_cap := none
      price := none
      volume := none
      last_trade := now }
  let st1 : BotState := { st with market_data := dictSet st.market_data ev.mint td }
  let _ := examineResult
  if should_analyze_token st1.analyzed_tokens st1.analysis_cache_time ev.mint now then
    match dictGet st1.market_data ev.mint with
    | some token_data =>
        if token_data.price.isSome && token_data.volume.isSome then
          let r := execute_momentum_trade st1 token_data
          (r.1, some r.2)
        else (st1, none)
    | none => (st1, none)
  else (st1, none)

/-- `PumpFunBot.handle_token_trade` (trading_bot.py lines 292-319).  An empty
`mint` models a falsy `data.get('mint')` (the `if token:` guard).  When
`marketCapSol` is `None` the market-logger f-string raises `TypeError` after
the market-data write, aborting the handler (caught in `on_message`). -/
def handle_token_trade (st : BotState) (ev : TokenTradeEvent) (now : ℚ) :
    BotState × Option Decision :=
  if ev.mint ≠ "" then
    let td : TokenData :=
      { symbol := ev.symbol
        address := ev.mint
        initial_buy := none
        sol_amount := none
        market_cap_sol := none
        market_cap := ev.marketCapSol
        price := none
        volume := none
        last_trade := now }
    let st1 : BotState := { st with market_data := dictSet st.market_data ev.mint td }
    match ev.marketCapSol with
    | none => (st1, none)
    | some _ =>
        if should_analyze_token st1.analyzed_tokens st1.analysis_cache_time ev.mint now then
          match dictGet st1.market_data ev.mint with
          | some td2 =>
              let r := execute_momentum_trade st1 td2
              (r.1, some r.2)
          | none => (st1, none)
        else (st1, none)
  else (st, none)

/-- One token processed by the `for token_address, token_data in
market_data.items()` body of `PumpFunBot.run` (trading_bot.py lines
612-631): skip if the cache is fresh; otherwise run the legitimacy check
(`ex`), invoke `execute_momentum_trade` only on success, and always store
`{'timestamp': now, 'is_safe': outcome}` in `self.analyzed_tokens`. -/
def run_loop_step (ex : String → Bool) (now : ℚ) (s : BotState)
    (entry : String × TokenData) : BotState :=
  if should_analyze_token s.analyzed_tokens s.analysis_cache_time entry.1 now then
    let is_safe := ex entry.1
    let s2 := if is_safe then (execute_momentum_trade s entry.2).1 else s
    { s2 with analyzed_tokens :=
        dictSet s2.analyzed_tokens entry.1 { timestamp := now, is_safe := is_safe } }
  else s

/-- One full pass of the decision loop in `PumpFunBot.run` over the current
market-data items. -/
def run_loop_body (st : BotState) (ex : String → Bool) (now : ℚ) : BotState :=
  st.market_data.foldl (run_loop_step ex now) st

/-- Python truthiness of a credential: `not value` is true for a missing
variable (`None`) and for the empty string. -/
def truthy (s : Option String) : Bool :=
  match s with
  | none => false
  | some v => v ≠ ""

/-- Outcome of `PumpFunBot.__init__` (trading_bot.py lines 33-65): the two
`ValueError` branches, or the constructed instance state. -/
inductive InitResult where
  | ok (st : BotState)
  | credentialsError
  | buyAmountError
deriving Repr, DecidableEq

/-- `PumpFunBot.__init__`: credentials check first, then the `buy_amount`
validation, then the field assignments (note: `min_market_cap_threshold` is
not among them). -/
def pumpfun_bot_init (api_key wallet_public_key wallet_private_key : Option String)
    (paper_mode : Bool) (buy_amount : ℚ) : InitResult :=
  if !truthy api_key || !truthy wallet_public_key || !truthy wallet_private_key then
    InitResult.credentialsError
  else if buy_amount ≤ 0 then
    InitResult.buyAmountError
  else
    InitResult.ok
      { ledger := { virtual_balance := 1, positions := [], token_prices := [] }
        market_data := []
        analyzed_tokens := []
        min_market_cap_threshold := none
        min_volume_threshold := 1/100
        position_size := 1/10
        min_price_change := 1/100
        analysis_cache_time := 300
        buy_amount := buy_amount
        paper_mode := paper_mode }

/-- The instance state produced by a successful `PumpFunBot(paper_mode=True,
buy_amount=0.1)` construction. -/
def defaultBotState : BotState :=
  { ledger := initialLedger
    market_data := []
    analyzed_tokens := []
    min_market_cap_threshold := none
    min_volume_threshold := 1/100
    position_size := 1/10
    min_price_change := 1/100
    analysis_cache_time := 300
    buy_amount := 1/10
    paper_mode := true }

theorem execute_momentum_trade_analyzed (s : BotState) (td : TokenData) :
    (execute_momentum_trade s td).1.analyzed_tokens = s.analyzed_tokens := by
  cases h : td.market_cap with
  | none => simp [execute_momentum_trade, h]
  | some mc =>
      cases h2 : s.min_market_cap_threshold with
      | none => simp [execute_momentum_trade, h, h2]
      | some th =>
          by_cases hlt : th < mc
          · simp [execute_momentum_trade, h, h2, hlt]
          · simp [execute_momentum_trade, h, h2, hlt]

theorem execute_momentum_trade_market (s : BotState) (td : TokenData) :
    (execute_momentum_trade s td).1.market_data = s.market_data := by
  cases h : td.market_cap with
  | none => simp [execute_momentum_trade, h]
  | some mc =>
      cases h2 : s.min_market_cap_threshold with
      | none => simp [execute_momentum_trade, h, h2]
      | some th =>
          by_cases hlt : th < mc
          · simp [execute_momentum_trade, h, h2, hlt]
          · simp [execute_momentum_trade, h, h2, hlt]

theorem run_loop_step_ledger_of_not_safe (ex : String → Bool) (now : ℚ)
    (s : BotState) (entry : String × TokenData) (hex : ex entry.1 = false) :
    (run_loop_step ex now s entry).ledger = s.ledger := by
  unfold run_loop_step
  by_cases hs : should_analyze_token s.analyzed_tokens s.analysis_cache_time entry.1 now
  · simp [hs, hex]
  · simp [hs]

theorem run_loop_step_cache (ex : String → Bool) (now : ℚ) (s : BotState)
    (entry : String × TokenData) (addr : String) :
    dictGet (run_loop_step ex now s entry).analyzed_tokens addr =
        dictGet s.analyzed_tokens addr ∨
      dictGet (run_loop_step ex now s entry).analyzed_tokens addr =
        some { timestamp := now, is_safe := ex addr } := by
  unfold run_loop_step
  by_cases hs : should_analyze_token s.analyzed_tokens s.analysis_cache_time entry.1 now
  · simp only [hs, if_true]
    have hs2 : (if ex entry.1 = true then (execute_momentum_trade s entry.2).1
        else s).analyzed_tokens = s.analyzed_tokens := by
      by_cases hsafe : ex entry.1 = true
      · simp [hsafe, execute_momentum_trade_analyzed]
      · simp [hsafe]
    by_cases ha : addr = entry.1
    · subst ha
      right
      simp [dictGet_dictSet_self]
    · left
      rw [dictGet_dictSet_ne _ _ _ _ ha, hs2]
  · simp [hs]

theorem run_loop_foldl_ledger (ex : String → Bool) (now : ℚ)
    (l : List (String × TokenData)) (s : BotState)
    (h : ∀ e ∈ l, ex e.1 = false) :
    (l.foldl (run_loop_step ex now) s).ledger = s.ledger := by
  induction l generalizing s with
  | nil => rfl
  | cons e rest ih =>
      rw [List.foldl_cons, ih (run_loop_step ex now s e) (fun e2 he2 => h e2 (by simp [he2])),
        run_loop_step_ledger_of_not_safe ex now s e (h e (by simp))]

theorem run_loop_foldl_cache (ex : String → Bool) (now : ℚ)
    (l : List (String × TokenData)) (s : BotState) (addr : String) :
    dictGet (l.foldl (run_loop_step ex now) s).analyzed_tokens addr =
        dictGet s.analyzed_tokens addr ∨
      dictGet (l.foldl (run_loop_step ex now) s).analyzed_tokens addr =
        some { timestamp := now, is_safe := ex addr } := by
  induction l generalizing s with
  | nil => exact Or.inl rfl
  | cons e rest ih =>
      rw [List.foldl_cons]
      rcases ih (run_loop_step ex now s e) with h | h
      · rcases run_loop_step_cache ex now s e addr with h2 | h2
        · exact Or.inl (h.trans h2)
        · exact Or.inr (h.trans h2)
      · exact Or.inr h

theorem handle_new_token_analyzed (st : BotState) (ev : NewTokenEvent) (now : ℚ)
    (r : Bool) : (handle_new_token st ev now r).1.analyzed_tokens = st.analyzed_tokens := by
  simp only [handle_new_token]
  split
  · split
    · split
      · simp [execute_momentum_trade_analyzed]
      · rfl
    · rfl
  · rfl

theorem handle_new_token_market (st : BotState) (ev : NewTokenEvent) (now : ℚ)
    (r : Bool) : (handle_new_token st ev now r).1.market_data =
      dictSet st.market_data ev.mint
        { symbol := ev.symbol, address := ev.mint,
          initial_buy := some ev.initialBuy, sol_amount := some ev.solAmount,
          market_cap_sol := some ev.marketCapSol,
          market_cap := none, price := none, volume := none, last_trade := now } := by
  simp only [handle_new_token]
  split
  · split
    · split
      · simp [execute_momentum_trade_market]
      · rfl
    · rfl
  · rfl

theorem handle_token_trade_market (st : BotState) (ev : TokenTradeEvent) (now : ℚ)
    (h : ev.mint ≠ "") : (handle_token_trade st ev now).1.market_data =
      dictSet st.market_data ev.mint
        { symbol := ev.symbol, address := ev.mint,
          initial_buy := none, sol_amount := none, market_cap_sol := none,
          market_cap := ev.marketCapSol, price := none, volume := none,
          last_trade := now } := by
  simp only [handle_token_trade, h, if_true, ne_eq, not_false_eq_true]
  split
  · rfl
  · split
    · split
      · simp [execute_momentum_trade_market]
      · rfl
    · rfl

/-- C6 (code bug): `__init__` never assigns `self.min_market_cap_threshold`,
yet `execute_momentum_trade` compares against it, so every call raises
`AttributeError` (caught and logged) and no Buy or Hold decision is ever
produced — the threshold rule the claim describes is unreachable.  First
conjunct: constructing the bot yields a state with no threshold attribute;
second: from that state, `execute_momentum_trade` ends in the error branch
for every token datum, never placing an order. -/
theorem momentum_trade_attribute_bug :
    pumpfun_bot_init (some "key") (some "pub") (some "priv") true (1/10) =
        InitResult.ok defaultBotState ∧
      ∀ td : TokenData,
        execute_momentum_trade defaultBotState td = (defaultBotState, Decision.error) := by
  constructor
  · unfold pumpfun_bot_init
    rw [if_neg (by decide), if_neg (by norm_num)]
    rfl
  · intro td
    cases h : td.market_cap with
    | none => simp [execute_momentum_trade, h]
    | some mc => simp [execute_momentum_trade, h, defaultBotState]

/-- C8 counterexample: `handle_new_token` invokes the legitimacy check
(line 275) but never writes the outcome to `self.analyzed_tokens` — after
processing a `newToken` event for `"A1"` on a fresh bot with a failing
check, the market state was updated yet the analysis cache still has no
record for `"A1"`. -/
theorem handler_cache_update_counterexample :
    dictGet ((handle_new_token defaultBotState
        { mint := "A1", symbol := "S", initialBuy := 0, solAmount := 0, marketCapSol := 0 }
        1000 false).1).analyzed_tokens "A1" = none ∧
      dictGet ((handle_new_token defaultBotState
        { mint := "A1", symbol := "S", initialBuy := 0, solAmount := 0, marketCapSol := 0 }
        1000 false).1).market_data "A1" ≠ none := by
  constructor
  · rw [handle_new_token_analyzed]
    rfl
  · rw [handle_new_token_market]
    simp [defaultBotState, dictSet, dictGet]

/-- C8 (amended): in the decision loop of `run`, no ledger mutation happens
in a pass in which every token's legitimacy check fails (failed tokens are
skipped), and any analysis-cache entry the pass changes records exactly the
check's outcome at the pass's timestamp; legitimacy checks invoked from
`handle_new_token`, by contrast, never update the analysis cache. -/
theorem decision_loop_gating :
    (∀ (st : BotState) (ex : String → Bool) (now : ℚ),
        (∀ e ∈ st.market_data, ex e.1 = false) →
          (run_loop_body st ex now).ledger = st.ledger) ∧
      (∀ (st : BotState) (ex : String → Bool) (now : ℚ) (addr : String),
        dictGet (run_loop_body st ex now).analyzed_tokens addr =
            dictGet st.analyzed_tokens addr ∨
          dictGet (run_loop_body st ex now).analyzed_tokens addr =
            some { timestamp := now, is_safe := ex addr }) ∧
      (∀ (st : BotState) (ev : NewTokenEvent) (now : ℚ) (r : Bool),
        (handle_new_token st ev now r).1.analyzed_tokens = st.analyzed_tokens) := by
  refine ⟨?_, ?_, handle_new_token_analyzed⟩
  · intro st ex now h
    exact run_loop_foldl_ledger ex now st.market_data st h
  · intro st ex now addr
    exact run_loop_foldl_cache ex now st.market_data st addr

/-- A market-data entry used to exercise the decision loop. -/
def exampleMarketEntry : TokenData :=
  { symbol := "S", address := "A1", initial_buy := none, sol_amount := none,
    market_cap_sol := none, market_cap := some 7, price := none, volume := none,
    last_trade := 100 }

/-- A bot state holding one market-data entry. -/
def exampleLoopState : BotState :=
  { defaultBotState with market_data := [("A1", exampleMarketEntry)] }

/-- Witness for C8: a decision-loop pass over one token whose check fails
leaves the ledger untouched. -/
theorem decision_loop_gating_witness :
    (run_loop_body exampleLoopState (fun _ => false) 500).ledger =
      exampleLoopState.ledger :=
  decision_loop_gating.1 exampleLoopState (fun _ => false) 500 (fun _ _ => rfl)

/-- The `newToken` event of end-to-end scenario 3. -/
def exampleNewTokenEvent : NewTokenEvent :=
  { mint := "A1", symbol := "S", initialBuy := 0, solAmount := 0, marketCapSol := 0 }

/-- A `tokenTrade` event for `"A1"` carrying price `0.05` (and market cap 7). -/
def exampleTradeEvent : TokenTradeEvent :=
  { mint := "A1", symbol := "S", marketCapSol := some 7, price := some (1/20),
    volume := none }

/-- Bot state after the `newToken` event of scenario 3. -/
def c9MidState : BotState :=
  (handle_new_token defaultBotState exampleNewTokenEvent 100 false).1

/-- Bot state after the subsequent `tokenTrade` event. -/
def c9FinalState : BotState :=
  (handle_token_trade c9MidState exampleTradeEvent 200).1

/-- C9 counterexample: after a `newToken` event for `"A1"` followed by a
`tokenTrade` event for `"A1"` carrying price `0.05`, the market-state entry
for `"A1"` stores no price at all (the handler reads only `mint`,
`marketCapSol` and `symbol`), so its last price is not `0.05`. -/
theorem token_trade_price_counterexample :
    dictGet c9FinalState.market_data "A1" =
        some { symbol := "S", address := "A1", initial_buy := none, sol_amount := none,
               market_cap_sol := none, market_cap := some 7, price := none, volume := none,
               last_trade := 200 } ∧
      (dictGet c9FinalState.market_data "A1").map TokenData.price ≠
        some (some (1/20)) := by
  constructor
  · rfl
  · rw [show (dictGet c9FinalState.market_data "A1").map TokenData.price =
        some none from rfl]
    simp

/-- C9 (amended): `newToken` and `tokenTrade` events create or update the
market-state entry of the referenced address with the event's market-cap
field and the current timestamp (plus symbol/address, and for `newToken`
the initial-buy and sol-amount fields); the event's price and volume are
not stored.  Concretely, after `newToken("A1")` then `tokenTrade("A1",
marketCapSol=0.05)`, the `"A1"` entry has market cap `0.05`. -/
theorem market_state_update_spec :
    (∀ (st : BotState) (ev : NewTokenEvent) (now : ℚ) (r : Bool),
        dictGet ((handle_new_token st ev now r).1).market_data ev.mint =
          some { symbol := ev.symbol, address := ev.mint,
                 initial_buy := some ev.initialBuy, sol_amount := some ev.solAmount,
                 market_cap_sol := some ev.marketCapSol,
                 market_cap := none, price := none, volume := none,
                 last_trade := now }) ∧
      (∀ (st : BotState) (ev : TokenTradeEvent) (now : ℚ),
        ev.mint ≠ "" →
          dictGet ((handle_token_trade st ev now).1).market_data ev.mint =
            some { symbol := ev.symbol, address := ev.mint,
                   initial_buy := none, sol_amount := none, market_cap_sol := none,
                   market_cap := ev.marketCapSol, price := none, volume := none,
                   last_trade := now }) ∧
      (dictGet ((handle_token_trade c9MidState
          { mint := "A1", symbol := "S", marketCapSol := some (1/20), price := none,
            volume := none } 200).1).market_data "A1").map TokenData.market_cap =
        some (some (1/20)) := by
  refine ⟨?_, ?_, rfl⟩
  · intro st ev now r
    rw [handle_new_token_market, dictGet_dictSet_self]
  · intro st ev now h
    rw [handle_token_trade_market st ev now h, dictGet_dictSet_self]

/-- Witness for C9: the `tokenTrade` clause of the amended theorem applied
to a concrete event. -/
theorem market_state_update_spec_witness :
    dictGet ((handle_token_trade defaultBotState exampleTradeEvent 300).1).market_data "A1" =
      some { symbol := "S", address := "A1", initial_buy := none, sol_amount := none,
             market_cap_sol := none, market_cap := some 7, price := none, volume := none,
             last_trade := 300 } :=
  market_state_update_spec.2.1 defaultBotState exampleTradeEvent 300 (by decide)

/-- C10: with all credentials present (truthy), any `buy_amount ≤ 0` makes
`PumpFunBot.__init__` raise `ValueError("buy_amount must be greater than
0.")`, so no bot instance exists with a non-positive configured buy amount. -/
theorem init_rejects_nonpositive_buy_amount
    (api_key wallet_public_key wallet_private_key : Option String)
    (paper_mode : Bool) (buy_amount : ℚ)
    (h1 : truthy api_key = true) (h2 : truthy wallet_public_key = true)
    (h3 : truthy wallet_private_key = true) (ha : buy_amount ≤ 0) :
    pumpfun_bot_init api_key wallet_public_key wallet_private_key paper_mode buy_amount =
      InitResult.buyAmountError := by
  simp [pumpfun_bot_init, h1, h2, h3, ha]

/-- Witness for C10: concrete credentials with `buy_amount = 0`. -/
theorem init_rejects_nonpositive_buy_amount_witness :
    pumpfun_bot_init (some "k") (some "w") (some "s") true 0 =
      InitResult.buyAmountError :=
  init_rejects_nonpositive_buy_amount (some "k") (some "w") (some "s") true 0
    (by decide) (by decide) (by decide) (by decide)
